import Mathlib

/-
Verification development for two analysis tasks of the O2Physics repository:

* `PWGHF/TableProducer/candidateSelectorBplusToD0Pi.cxx` — the cascading
  candidate selector `HfCandidateSelectorBplusToD0Pi` (skim / topological /
  PID stages accumulated into a status bitmask);
* `PWGLF/Tasks/k1analysis.cxx` — the combinatorial K1(1270) reconstructor
  `k1analysis::fillHistograms` (pair/triple enumeration with kinematic and
  PID gates).

Real-valued track and candidate fields are embedded as rationals (`ℚ`): the
source only compares them, subtracts them and takes absolute values, so the
control flow of every selection is captured exactly.  External kinematic
utilities (TLorentzVector sums, invariant masses, rapidity,
`TrackSelectorPID::getStatusTrackPIDTpcAndTof`) are black boxes to this code;
their outputs appear as input fields of the embedded records.
-/

namespace O2

/-! ## Embedding of `candidateSelectorBplusToD0Pi.cxx` -/

/-- Status values returned by the external `TrackSelectorPID` track selector
(`Common/Core/TrackSelectorPID.h`). `selectionPID` only compares a status for
equality with `PIDAccepted` and `PIDRejected`. -/
inductive PIDStatus where
  | PIDNotApplicable
  | PIDRejected
  | PIDConditional
  | PIDAccepted
deriving DecidableEq, Repr

/-- Value of `hf_cand_bplus::DecayType::BplusToD0Pi`, the first enumerator of
the decay-type enumeration (the source tests `hfflag() & 1 << BplusToD0Pi`). -/
def BplusToD0Pi : Nat := 0

/-- Value of `SelectionStep::RecoSkims` (source comment: `RecoSkims = 0`). -/
def RecoSkims : Nat := 0

/-- Value of `SelectionStep::RecoTopol` (source comment: `RecoTopol = 1`). -/
def RecoTopol : Nat := 1

/-- Value of `SelectionStep::RecoPID` (source comment: `RecoPID = 2`). -/
def RecoPID : Nat := 2

/-- The PDG D0 mass constant `RecoDecay::getMassPDG(pdg::Code::kD0)`; an
external constant whose exact value is irrelevant to the claims. -/
def massD0PDG : ℚ := 186484 / 100000

/-- One row of the `cuts` labeled array: the per-pT-bin thresholds read by
`selectionTopol` via `cuts->get(pTBin, label)`, one field per label used. -/
structure CutRow where
  ptPi : ℚ          -- label "pT Pi"
  impParProduct : ℚ -- label "Imp. Par. Product"
  deltaMD0 : ℚ      -- label "DeltaMD0"
  bDecLen : ℚ       -- label "B decLen"
  bDecLenXY : ℚ     -- label "B decLenXY"
  cpa : ℚ           -- label "CPA"
  d0D0 : ℚ          -- label "d0 D0"
  d0Pi : ℚ          -- label "d0 Pi"

/-- Configuration of `HfCandidateSelectorBplusToD0Pi`: the configurables and
the startup-derived consistency flag that `process` reads.  The cut table is
a total map from pT-bin index to its row (the labeled array has one row per
bin of `binsPt`). -/
structure BplusConfig where
  usePid : Bool
  acceptPIDNotApplicable : Bool
  selectionFlagDAndUsePidInSync : Bool
  binsPt : List ℚ
  cuts : Nat → CutRow

/-- Fields of a `HfCandBplus` candidate row read by `process` and
`selectionTopol`. -/
structure HfCandBplus where
  pt : ℚ
  hfflag : Nat
  impactParameterProduct : ℚ
  decayLength : ℚ
  decayLengthXY : ℚ
  cpa : ℚ
  impactParameter0 : ℚ
  impactParameter1 : ℚ

/-- Fields of the D0 daughter (prong0) read by `selectionTopol`: the two
invariant masses are computed by the external kinematic utility
(`invMassD0barToKPi`, `invMassD0ToPiK`) and enter here as plain fields. -/
structure HfCandD0 where
  invMassD0barToKPi : ℚ
  invMassD0ToPiK : ℚ

/-- Fields of the pion daughter (prong1) read by the selector.  `pidStatus`
is the value the external `TrackSelectorPID::getStatusTrackPIDTpcAndTof`
assigns to this track. -/
structure PiTrack where
  pt : ℚ
  sign : Int
  pidStatus : PIDStatus

/-- Modelled from the spec: `findBin` lives in `PWGHF/Core/SelectorCuts.h`,
which is not part of the sources here.  Per the spec it looks up the pT bin
containing `pt` among strictly increasing edges using half-open intervals
`[edge_i, edge_{i+1})` and returns the sentinel `-1` when `pt` lies outside
all edges. -/
def findBin (edges : List ℚ) (pt : ℚ) : Int :=
  go edges 0
where
  /-- Scan consecutive edge pairs, returning the index of the containing
  half-open interval, or `-1`. -/
  go : List ℚ → Nat → Int
    | e1 :: e2 :: rest, i =>
        if e1 ≤ pt ∧ pt < e2 then (i : Int) else go (e2 :: rest) (i + 1)
    | _, _ => -1

/-- Guard of the D0bar intermediate-mass window check in `selectionTopol`
(source line `if (trackPi.sign() > 0)`). -/
def d0barMassCheckEvaluated (trackPi : PiTrack) : Bool :=
  decide (0 < trackPi.sign)

/-- Guard of the D0 intermediate-mass window check in `selectionTopol`
(source line `if (trackPi.sign() < 0)`). -/
def d0MassCheckEvaluated (trackPi : PiTrack) : Bool :=
  decide (trackPi.sign < 0)

/-- Embedding of `HfCandidateSelectorBplusToD0Pi::selectionTopol`: the
ordered chain of topological cuts, each an independent early-false exit,
exactly as in the source. -/
def selectionTopol (cfg : BplusConfig) (hfCandBplus : HfCandBplus)
    (hfCandD0 : HfCandD0) (trackPi : PiTrack) : Bool :=
  let pTBin := findBin cfg.binsPt hfCandBplus.pt
  if pTBin = -1 then false
  else
    let row := cfg.cuts pTBin.toNat
    if trackPi.pt < row.ptPi then false
    else if row.impParProduct < hfCandBplus.impactParameterProduct then false
    else if d0barMassCheckEvaluated trackPi
            && decide (row.deltaMD0 < |hfCandD0.invMassD0barToKPi - massD0PDG|) then false
    else if d0MassCheckEvaluated trackPi
            && decide (row.deltaMD0 < |hfCandD0.invMassD0ToPiK - massD0PDG|) then false
    else if hfCandBplus.decayLength < row.bDecLen then false
    else if hfCandBplus.decayLengthXY < row.bDecLenXY then false
    else if hfCandBplus.cpa < row.cpa then false
    else if |hfCandBplus.impactParameter0| < row.d0D0 then false
    else if |hfCandBplus.impactParameter1| < row.d0Pi then false
    else true

/-- Embedding of `HfCandidateSelectorBplusToD0Pi::selectionPID`. -/
def selectionPID (acceptPIDNotApplicable : Bool) (pidTrackPi : PIDStatus) : Bool :=
  if !acceptPIDNotApplicable && decide (pidTrackPi ≠ PIDStatus.PIDAccepted) then false
  else if acceptPIDNotApplicable && decide (pidTrackPi = PIDStatus.PIDRejected) then false
  else true

/-- Embedding of the per-candidate body of
`HfCandidateSelectorBplusToD0Pi::process`: the status bitmask emitted for one
candidate (each `continue` in the source emits the status accumulated so
far; `SETBIT(status, n)` is `status ||| (1 <<< n)`). -/
def processCandidate (cfg : BplusConfig) (hfCandB : HfCandBplus)
    (candD0 : HfCandD0) (trackPi : PiTrack) : Nat :=
  let statusBplus : Nat := 0
  if hfCandB.hfflag &&& (1 <<< BplusToD0Pi) = 0 then statusBplus
  else
    let statusBplus := statusBplus ||| (1 <<< RecoSkims)
    if !selectionTopol cfg hfCandB candD0 trackPi then statusBplus
    else
      let statusBplus := statusBplus ||| (1 <<< RecoTopol)
      if !cfg.selectionFlagDAndUsePidInSync then statusBplus
      else if cfg.usePid then
        if !selectionPID cfg.acceptPIDNotApplicable trackPi.pidStatus then statusBplus
        else statusBplus ||| (1 <<< RecoPID)
      else statusBplus

/-! ## Embedding of `k1analysis.cxx` -/

/-- Fields of a `ResoTracks` row read by `k1analysis::fillHistograms`.  The
nSigma fields are the detector responses delivered by the external PID
tables; `hasTOF` embeds the test
`(tofPIDselectionFlag() & kHasTOF) == kHasTOF`. -/
structure ResoTrack where
  index : Nat
  sign : Int
  pt : ℚ
  dcaXY : ℚ
  dcaZ : ℚ
  tpcNSigmaPi : ℚ
  tofNSigmaPi : ℚ
  tpcNSigmaKa : ℚ
  tofNSigmaKa : ℚ
  hasTOF : Bool

/-- Configurables of the `k1analysis` task read by `fillHistograms`. -/
structure K1Config where
  cMinPtcut : ℚ
  cMaxDCArToPVcut : ℚ
  cMaxDCAzToPVcut : ℚ
  cMinDCAzToPVcut : ℚ
  cMaxTPCnSigmaPion : ℚ
  cMaxTOFnSigmaPion : ℚ
  cMaxTPCnSigmaPionBach : ℚ
  cMaxTOFnSigmaPionBach : ℚ
  kaonTPCPIDpTintv : List ℚ
  kaonTPCPIDcuts : List ℚ
  kaonTOFPIDpTintv : List ℚ
  kaonTOFPIDcuts : List ℚ
  cDoTOFPID : Bool
  cK892masswindow : ℚ
  cPiPiMin : ℚ
  cPiPiMax : ℚ
  cK1MaxRap : ℚ
  cK1MinRap : ℚ

/-- The PDG K*(892)0 mass constant `TDatabasePDG::Instance()->GetParticle(313)->Mass()`;
an external constant whose exact value is irrelevant to the claims. -/
def massK892PDG : ℚ := 89555 / 100000

/-- Embedding of `k1analysis::trackCut` (note: the source compares `dcaXY`
without an absolute value here). -/
def trackCut (cfg : K1Config) (track : ResoTrack) : Bool :=
  if track.pt < cfg.cMinPtcut then false
  else if cfg.cMaxDCArToPVcut < track.dcaXY then false
  else if track.dcaZ < cfg.cMinDCAzToPVcut ∨ cfg.cMaxDCAzToPVcut < track.dcaZ then false
  else true

/-- Pion (trk1) PID selection of `fillHistograms`: TPC cut always, TOF cut
when the track has TOF; the flag only ever moves to `false`. -/
def isTrk1Selected (cfg : K1Config) (trk1 : ResoTrack) : Bool :=
  let afterTPC := if |trk1.tpcNSigmaPi| > cfg.cMaxTPCnSigmaPion then false else true
  if trk1.hasTOF then
    if |trk1.tofNSigmaPi| > cfg.cMaxTOFnSigmaPion then false else afterTPC
  else afterTPC

/-- Bachelor pion PID selection of the third-track loop of `fillHistograms`. -/
def isbTrkSelected (cfg : K1Config) (bTrack : ResoTrack) : Bool :=
  let afterTPC := if |bTrack.tpcNSigmaPi| > cfg.cMaxTPCnSigmaPionBach then false else true
  if cfg.cDoTOFPID && bTrack.hasTOF then
    if |bTrack.tofNSigmaPi| > cfg.cMaxTOFnSigmaPionBach then false else afterTPC
  else afterTPC

/-- One kaon pT-breakpoint loop of `fillHistograms`
(`for (int i = 0; i < lengthOfkaonTPCPIDpTintv; i++) ...`): iterate `k` more
indices starting at `i`, reading `intv[i]` as the breakpoint and, when the
track pT lies below it, gating `|nsig|` by `cuts[i]`; the accumulator is only
ever forced to `false`.  An out-of-bounds vector read (undefined behavior in
the C++ source) is `none`. -/
def pidLoop (intv cuts : List ℚ) (pt nsig : ℚ) : Nat → Nat → Bool → Option Bool
  | _, 0, acc => some acc
  | i, k + 1, acc =>
    match intv[i]? with
    | none => none
    | some edge =>
      if pt < edge then
        match cuts[i]? with
        | none => none
        | some c => pidLoop intv cuts pt nsig (i + 1) k (if |nsig| > c then false else acc)
      else pidLoop intv cuts pt nsig (i + 1) k acc

/-- The kaon TPC pT-breakpoint gate of `fillHistograms` (lines 233–240):
starts accepting, runs the breakpoint loop over the whole TPC interval list. -/
def kaonTPCGate (intv cuts : List ℚ) (pt nsig : ℚ) : Option Bool :=
  if 0 < intv.length then pidLoop intv cuts pt nsig 0 intv.length true else some true

/-- Full kaon (trk2) PID selection of `fillHistograms`: the TPC breakpoint
loop, then — when the track has TOF — the TOF breakpoint loop, which the
source bounds by the length of the TPC interval list while indexing the TOF
lists. -/
def kaonPidSelected (cfg : K1Config) (trk2 : ResoTrack) : Option Bool :=
  let n := cfg.kaonTPCPIDpTintv.length
  let tpcRes :=
    if 0 < n then pidLoop cfg.kaonTPCPIDpTintv cfg.kaonTPCPIDcuts trk2.pt trk2.tpcNSigmaKa 0 n true
    else some true
  match tpcRes with
  | none => none
  | some acc =>
    if trk2.hasTOF then
      if 0 < n then pidLoop cfg.kaonTOFPIDpTintv cfg.kaonTOFPIDcuts trk2.pt trk2.tofNSigmaKa 0 n acc
      else some acc
    else some acc

/-- Follows the claim's words, not the source: the verdict of the last
applicable pT breakpoint in iteration order (`none` when no breakpoint is
applicable), to be compared against the gate the source actually computes. -/
def lastApplicableVerdict (intv cuts : List ℚ) (pt nsig : ℚ) : Option Bool :=
  match ((List.range intv.length).filter fun i => decide (pt < intv.getD i 0)).getLast? with
  | none => none
  | some i => some (decide (¬ |nsig| > cuts.getD i 0))

/-- Conjunction semantics of one breakpoint loop: every applicable breakpoint
must pass (positions beyond either list are never read when the loop is
defined). -/
def allApplicablePass (intv cuts : List ℚ) (pt nsig : ℚ) : Bool :=
  (intv.zip cuts).all fun p => if pt < p.1 then decide (¬ |nsig| > p.2) else true

/-- Index-anchored form of the conjunction of applicable-breakpoint verdicts
over `k` indices starting at `i`, used to relate `pidLoop` to
`allApplicablePass`. -/
def applPassFrom (intv cuts : List ℚ) (pt nsig : ℚ) : Nat → Nat → Bool
  | _, 0 => true
  | i, k + 1 =>
    (match intv[i]?, cuts[i]? with
     | some e, some c => if pt < e then decide (¬ |nsig| > c) else true
     | _, _ => true) &&
    applPassFrom intv cuts pt nsig (i + 1) k

/-- Survival of an ordered pair `(trk1, trk2)` through the two-body stage of
`fillHistograms`, up to the point where the K(892)0 combination is
histogrammed: each conjunct is one `continue` guard of the source, in source
order (index identity, opposite-sign, track cuts, pion PID, kaon PID).  An
undefined out-of-bounds read in the kaon gate counts as non-survival. -/
def pairSelected (cfg : K1Config) (trk1 trk2 : ResoTrack) : Bool :=
  decide (trk1.index ≠ trk2.index) &&
  !decide (0 < trk1.sign * trk2.sign) &&
  trackCut cfg trk1 &&
  trackCut cfg trk2 &&
  isTrk1Selected cfg trk1 &&
  (kaonPidSelected cfg trk2).getD false

/-- Survival of a triple through the third-track loop of `fillHistograms`,
up to the point where the K1 combination is histogrammed.  The kinematic
quantities produced by the external TLorentzVector black box — the two-body
invariant mass `mK892`, the three-body rapidity `rapK1` and the auxiliary
pion-pair mass `mPiPi` — enter as inputs.  Conjuncts in source order: pair
survival, K(892)0 mass window, bachelor index distinctness, bachelor track
cut, bachelor PID, rapidity window, pion-pair mass window. -/
def tripleSelected (cfg : K1Config) (mK892 rapK1 mPiPi : ℚ)
    (trk1 trk2 bTrack : ResoTrack) : Bool :=
  pairSelected cfg trk1 trk2 &&
  !decide (cfg.cK892masswindow < |mK892 - massK892PDG|) &&
  !decide (bTrack.index = trk1.index ∨ bTrack.index = trk2.index) &&
  trackCut cfg bTrack &&
  isbTrkSelected cfg bTrack &&
  !decide (cfg.cK1MaxRap < rapK1 ∨ rapK1 < cfg.cK1MinRap) &&
  !decide (mPiPi < cfg.cPiPiMin ∨ cfg.cPiPiMax < mPiPi)

/-! ## Example inputs shared by witness theorems -/

/-- A cut row whose thresholds every field of `exHfCandBplus` satisfies. -/
def exCutRow : CutRow :=
  { ptPi := 0, impParProduct := 0, deltaMD0 := 0, bDecLen := 0,
    bDecLenXY := 0, cpa := 0, d0D0 := 0, d0Pi := 0 }

/-- Example selector configuration. -/
def exBplusConfig : BplusConfig :=
  { usePid := true, acceptPIDNotApplicable := true,
    selectionFlagDAndUsePidInSync := true, binsPt := [0, 100],
    cuts := fun _ => exCutRow }

/-- Example B+ candidate passing every topological cut of `exBplusConfig`. -/
def exHfCandBplus : HfCandBplus :=
  { pt := 1, hfflag := 1, impactParameterProduct := -1, decayLength := 1,
    decayLengthXY := 1, cpa := 1, impactParameter0 := 1, impactParameter1 := 1 }

/-- Example D0 daughter sitting exactly at the PDG D0 mass. -/
def exHfCandD0 : HfCandD0 := { invMassD0barToKPi := massD0PDG, invMassD0ToPiK := 0 }

/-- Example positive pion daughter accepted by PID. -/
def exPiTrack : PiTrack := { pt := 1, sign := 1, pidStatus := PIDStatus.PIDAccepted }

/-- Example reconstructor configuration with loose cuts. -/
def exK1Config : K1Config :=
  { cMinPtcut := 0, cMaxDCArToPVcut := 1, cMaxDCAzToPVcut := 2, cMinDCAzToPVcut := 0,
    cMaxTPCnSigmaPion := 2, cMaxTOFnSigmaPion := 2,
    cMaxTPCnSigmaPionBach := 2, cMaxTOFnSigmaPionBach := 2,
    kaonTPCPIDpTintv := [999], kaonTPCPIDcuts := [2],
    kaonTOFPIDpTintv := [999], kaonTOFPIDcuts := [2],
    cDoTOFPID := true, cK892masswindow := 1 / 10, cPiPiMin := 0, cPiPiMax := 999,
    cK1MaxRap := 1 / 2, cK1MinRap := -1 / 2 }

/-- Example positive track passing all cuts of `exK1Config`. -/
def exTrk1 : ResoTrack :=
  { index := 0, sign := 1, pt := 1, dcaXY := 0, dcaZ := 0, tpcNSigmaPi := 0,
    tofNSigmaPi := 0, tpcNSigmaKa := 0, tofNSigmaKa := 0, hasTOF := false }

/-- Example negative track (the kaon role). -/
def exTrk2 : ResoTrack := { exTrk1 with index := 1, sign := -1 }

/-- Example bachelor track. -/
def exTrk3 : ResoTrack := { exTrk1 with index := 2, sign := 1 }

/-! ## Theorems about the B+ selector -/

/-- A natural number among 0, 1, 3, 7 has prefix-monotone bits. -/
theorem prefix_monotone_of_status (s : Nat) (hs : s = 0 ∨ s = 1 ∨ s = 3 ∨ s = 7) :
    ∀ k j : Nat, j < k → s.testBit k = true → s.testBit j = true := by
  intro k j hjk hk
  by_cases hk3 : k < 3
  · rcases hs with rfl | rfl | rfl | rfl <;> interval_cases k <;> interval_cases j <;>
      revert hk <;> decide
  · exfalso
    have h8 : (8 : Nat) ≤ 2 ^ k := by
      calc (8 : Nat) = 2 ^ 3 := by norm_num
      _ ≤ 2 ^ k := Nat.pow_le_pow_right (by norm_num) (by omega)
    have hlt : s < 2 ^ k := by rcases hs with rfl | rfl | rfl | rfl <;> omega
    rw [Nat.testBit_lt_two_pow hlt] at hk
    exact Bool.false_ne_true hk

/-- The status emitted by `processCandidate` is one of 0, 1, 3, 7. -/
theorem processCandidate_mem (cfg : BplusConfig) (hfCandB : HfCandBplus)
    (candD0 : HfCandD0) (trackPi : PiTrack) :
    processCandidate cfg hfCandB candD0 trackPi = 0 ∨
    processCandidate cfg hfCandB candD0 trackPi = 1 ∨
    processCandidate cfg hfCandB candD0 trackPi = 3 ∨
    processCandidate cfg hfCandB candD0 trackPi = 7 := by
  simp only [processCandidate]
  split_ifs <;> decide

/-- Claim C1: for every candidate processed by `process`, the emitted
`SelectionStatus` bitmask is prefix-monotonic — if bit `k` is set then every
bit below `k` is set — equivalently the status is one of 0, 1, 3, 7. -/
theorem c1_selection_status_prefix_monotonic (cfg : BplusConfig)
    (hfCandB : HfCandBplus) (candD0 : HfCandD0) (trackPi : PiTrack) :
    (processCandidate cfg hfCandB candD0 trackPi = 0 ∨
     processCandidate cfg hfCandB candD0 trackPi = 1 ∨
     processCandidate cfg hfCandB candD0 trackPi = 3 ∨
     processCandidate cfg hfCandB candD0 trackPi = 7) ∧
    (∀ k j : Nat, j < k →
      (processCandidate cfg hfCandB candD0 trackPi).testBit k = true →
      (processCandidate cfg hfCandB candD0 trackPi).testBit j = true) :=
  ⟨processCandidate_mem cfg hfCandB candD0 trackPi,
   prefix_monotone_of_status _ (processCandidate_mem cfg hfCandB candD0 trackPi)⟩

/-- Evaluation of the example candidate: it reaches the full status 7. -/
theorem exProcess_eq_seven :
    processCandidate exBplusConfig exHfCandBplus exHfCandD0 exPiTrack = 7 := by
  norm_num [processCandidate, selectionTopol, findBin, findBin.go, exBplusConfig,
    exHfCandBplus, exHfCandD0, exPiTrack, exCutRow, massD0PDG, d0barMassCheckEvaluated,
    d0MassCheckEvaluated, selectionPID, BplusToD0Pi, RecoSkims, RecoTopol, RecoPID]
  decide

/-- Witness for C1 at a concrete candidate reaching status 7: bit 1 being
set forces bit 0 to be set. -/
theorem c1_witness :
    (processCandidate exBplusConfig exHfCandBplus exHfCandD0 exPiTrack).testBit 0 = true :=
  (c1_selection_status_prefix_monotonic exBplusConfig exHfCandBplus exHfCandD0
    exPiTrack).2 1 0 (by decide) (by rw [exProcess_eq_seven]; decide)

/-- Claim C2: a candidate whose `hfflag` misses the `BplusToD0Pi` hypothesis
bit is emitted with status 0, whatever its other fields. -/
theorem c2_missing_hypothesis_bit_yields_zero (cfg : BplusConfig)
    (hfCandB : HfCandBplus) (candD0 : HfCandD0) (trackPi : PiTrack)
    (h : hfCandB.hfflag &&& (1 <<< BplusToD0Pi) = 0) :
    processCandidate cfg hfCandB candD0 trackPi = 0 := by
  simp only [processCandidate]
  simp [h]

/-- Witness for C2: a candidate flagged only with a different decay bit
(hfflag 2) is emitted with status 0 even though all cuts would pass. -/
theorem c2_witness :
    processCandidate exBplusConfig { exHfCandBplus with hfflag := 2 } exHfCandD0 exPiTrack = 0 :=
  c2_missing_hypothesis_bit_yields_zero exBplusConfig _ exHfCandD0 exPiTrack (by decide)

/-- Claim C3: the two charge-dependent intermediate-mass window checks of
`selectionTopol` are guarded by the pion charge sign: never are both
evaluated; for a charged pion (nonzero sign) exactly one is, and the result
of `selectionTopol` does not depend on the invariant mass whose check is not
selected. -/
theorem c3_mass_checks_mutually_exclusive (cfg : BplusConfig)
    (hfCandBplus : HfCandBplus) (trackPi : PiTrack) (mSel mOther mOther' : ℚ) :
    (¬ (d0barMassCheckEvaluated trackPi = true ∧ d0MassCheckEvaluated trackPi = true)) ∧
    (trackPi.sign ≠ 0 →
      (d0barMassCheckEvaluated trackPi = true ∨ d0MassCheckEvaluated trackPi = true)) ∧
    (d0barMassCheckEvaluated trackPi = true →
      selectionTopol cfg hfCandBplus ⟨mSel, mOther⟩ trackPi =
        selectionTopol cfg hfCandBplus ⟨mSel, mOther'⟩ trackPi) ∧
    (d0MassCheckEvaluated trackPi = true →
      selectionTopol cfg hfCandBplus ⟨mOther, mSel⟩ trackPi =
        selectionTopol cfg hfCandBplus ⟨mOther', mSel⟩ trackPi) := by
  refine ⟨?_, ?_, ?_, ?_⟩
  · simp only [d0barMassCheckEvaluated, d0MassCheckEvaluated, decide_eq_true_eq]
    omega
  · intro h
    simp only [d0barMassCheckEvaluated, d0MassCheckEvaluated, decide_eq_true_eq]
    omega
  · intro h
    have h2 : d0MassCheckEvaluated trackPi = false := by
      simp only [d0barMassCheckEvaluated, decide_eq_true_eq] at h
      simp only [d0MassCheckEvaluated, decide_eq_false_iff_not]
      omega
    simp [selectionTopol, h2]
  · intro h
    have h2 : d0barMassCheckEvaluated trackPi = false := by
      simp only [d0MassCheckEvaluated, decide_eq_true_eq] at h
      simp only [d0barMassCheckEvaluated, decide_eq_false_iff_not]
      omega
    simp [selectionTopol, h2]

/-- Witness for C3 at a positive pion: the D0bar check is the one selected,
and varying the D0 mass from 0 to 5 does not change the topological verdict. -/
theorem c3_witness :
    (d0barMassCheckEvaluated exPiTrack = true ∨ d0MassCheckEvaluated exPiTrack = true) ∧
    selectionTopol exBplusConfig exHfCandBplus ⟨massD0PDG, 0⟩ exPiTrack =
      selectionTopol exBplusConfig exHfCandBplus ⟨massD0PDG, 5⟩ exPiTrack :=
  ⟨(c3_mass_checks_mutually_exclusive exBplusConfig exHfCandBplus exPiTrack
      massD0PDG 0 5).2.1 (by decide),
   (c3_mass_checks_mutually_exclusive exBplusConfig exHfCandBplus exPiTrack
      massD0PDG 0 5).2.2.1 (by decide)⟩

/-- Claim C7: when `findBin` resolves to the sentinel `-1` — the candidate pT
lies outside all configured bin edges — `selectionTopol` returns `false`. -/
theorem c7_unfound_bin_rejects (cfg : BplusConfig) (hfCandBplus : HfCandBplus)
    (hfCandD0 : HfCandD0) (trackPi : PiTrack)
    (h : findBin cfg.binsPt hfCandBplus.pt = -1) :
    selectionTopol cfg hfCandBplus hfCandD0 trackPi = false := by
  simp [selectionTopol, h]

/-- Witness for C7: with an empty edge list every pT is out of range and the
candidate is rejected at the topological stage. -/
theorem c7_witness :
    selectionTopol { exBplusConfig with binsPt := [] } exHfCandBplus exHfCandD0 exPiTrack = false :=
  c7_unfound_bin_rejects { exBplusConfig with binsPt := [] } exHfCandBplus
    exHfCandD0 exPiTrack (by decide)

/-- Claim C8: under `acceptPIDNotApplicable = true` the PID stage passes a
status exactly when it is not `PIDRejected`; under
`acceptPIDNotApplicable = false` exactly when it is `PIDAccepted`. -/
theorem c8_selection_pid_semantics (pidTrackPi : PIDStatus) :
    selectionPID true pidTrackPi = decide (pidTrackPi ≠ PIDStatus.PIDRejected) ∧
    selectionPID false pidTrackPi = decide (pidTrackPi = PIDStatus.PIDAccepted) := by
  cases pidTrackPi <;> decide

/-- Claim C9: a candidate passing skim and topology whose PID stage is not
entered — the upstream consistency flag is down, or PID selection is
disabled — is emitted with status exactly 3 (first two bits set). -/
theorem c9_pid_stage_not_entered_status_three (cfg : BplusConfig)
    (hfCandB : HfCandBplus) (candD0 : HfCandD0) (trackPi : PiTrack)
    (hflag : hfCandB.hfflag &&& (1 <<< BplusToD0Pi) ≠ 0)
    (htopol : selectionTopol cfg hfCandB candD0 trackPi = true)
    (hnopid : cfg.selectionFlagDAndUsePidInSync = false ∨ cfg.usePid = false) :
    processCandidate cfg hfCandB candD0 trackPi = 3 := by
  simp only [processCandidate]
  rcases hnopid with h | h
  · simp [hflag, htopol, h]
    decide
  · by_cases hs : cfg.selectionFlagDAndUsePidInSync <;> simp [hflag, htopol, h, hs] <;> decide

/-- Witness for C9: the passing example candidate with PID selection disabled
is emitted with status 3. -/
theorem c9_witness :
    processCandidate { exBplusConfig with usePid := false } exHfCandBplus exHfCandD0 exPiTrack = 3 :=
  c9_pid_stage_not_entered_status_three { exBplusConfig with usePid := false }
    exHfCandBplus exHfCandD0 exPiTrack (by decide)
    (by
      norm_num [selectionTopol, findBin, findBin.go, exBplusConfig, exHfCandBplus,
        exHfCandD0, exPiTrack, exCutRow, massD0PDG, d0barMassCheckEvaluated,
        d0MassCheckEvaluated])
    (Or.inr rfl)

/-! ## Theorems about the K1 combinatorial reconstructor -/

/-- Survival of the example pair through the two-body stage. -/
theorem exPair_selected : pairSelected exK1Config exTrk1 exTrk2 = true := by
  norm_num [pairSelected, trackCut, isTrk1Selected, kaonPidSelected, pidLoop,
    exK1Config, exTrk1, exTrk2]

/-- Survival of the example triple through the third-track loop, with the
two-body mass sitting at the K(892)0 pole, rapidity 0 and pion-pair mass 1. -/
theorem exTriple_selected :
    tripleSelected exK1Config massK892PDG 0 1 exTrk1 exTrk2 exTrk3 = true := by
  norm_num [tripleSelected, pairSelected, trackCut, isTrk1Selected, isbTrkSelected,
    kaonPidSelected, pidLoop, exK1Config, exTrk1, exTrk2, exTrk3, massK892PDG]

/-- Claim C5: no two-body K(892)0 combination survives to histogramming (or
to the third-track loop) with both daughters of the same charge sign — both
positive or both negative is impossible among surviving pairs. -/
theorem c5_opposite_sign_invariant (cfg : K1Config) (trk1 trk2 : ResoTrack)
    (h : pairSelected cfg trk1 trk2 = true) :
    ¬ (0 < trk1.sign ∧ 0 < trk2.sign) ∧ ¬ (trk1.sign < 0 ∧ trk2.sign < 0) := by
  have hsign : ¬ (0 < trk1.sign * trk2.sign) := by
    simp only [pairSelected, Bool.and_eq_true, Bool.not_eq_true',
      decide_eq_false_iff_not, decide_eq_true_eq] at h
    tauto
  constructor
  · rintro ⟨h1, h2⟩
    exact hsign (mul_pos h1 h2)
  · rintro ⟨h1, h2⟩
    exact hsign (mul_pos_of_neg_of_neg h1 h2)

/-- Witness for C5: the surviving example pair is opposite-sign. -/
theorem c5_witness :
    ¬ (0 < exTrk1.sign ∧ 0 < exTrk2.sign) ∧ ¬ (exTrk1.sign < 0 ∧ exTrk2.sign < 0) :=
  c5_opposite_sign_invariant exK1Config exTrk1 exTrk2 exPair_selected

/-- Claim C6: no surviving combination references one track index in two
daughter roles: surviving pairs have distinct indices, and the bachelor of a
surviving triple differs from both pair daughters. -/
theorem c6_no_self_reference (cfg : K1Config) (mK892 rapK1 mPiPi : ℚ)
    (trk1 trk2 bTrack : ResoTrack) :
    (pairSelected cfg trk1 trk2 = true → trk1.index ≠ trk2.index) ∧
    (tripleSelected cfg mK892 rapK1 mPiPi trk1 trk2 bTrack = true →
      trk1.index ≠ trk2.index ∧ bTrack.index ≠ trk1.index ∧ bTrack.index ≠ trk2.index) := by
  have hpair : pairSelected cfg trk1 trk2 = true → trk1.index ≠ trk2.index := by
    intro h
    simp only [pairSelected, Bool.and_eq_true, Bool.not_eq_true',
      decide_eq_false_iff_not, decide_eq_true_eq] at h
    tauto
  refine ⟨hpair, ?_⟩
  intro h
  simp only [tripleSelected, Bool.and_eq_true, Bool.not_eq_true',
    decide_eq_false_iff_not, decide_eq_true_eq] at h
  have hids : ¬ (bTrack.index = trk1.index ∨ bTrack.index = trk2.index) := by tauto
  have hp : pairSelected cfg trk1 trk2 = true := by tauto
  exact ⟨hpair hp, fun he => hids (Or.inl he), fun he => hids (Or.inr he)⟩

/-- Witness for C6: the surviving example triple uses three distinct track
indices. -/
theorem c6_witness :
    exTrk1.index ≠ exTrk2.index ∧ exTrk3.index ≠ exTrk1.index ∧ exTrk3.index ≠ exTrk2.index :=
  (c6_no_self_reference exK1Config massK892PDG 0 1 exTrk1 exTrk2 exTrk3).2 exTriple_selected

/-- When defined, one breakpoint loop computes its initial accumulator AND
the conjunction of all applicable breakpoint verdicts in its index range:
the flag is sticky, never reset. -/
theorem pidLoop_eq_some (intv cuts : List ℚ) (pt nsig : ℚ) :
    ∀ (k i : Nat) (acc b : Bool),
      pidLoop intv cuts pt nsig i k acc = some b →
      b = (acc && applPassFrom intv cuts pt nsig i k) := by
  intro k
  induction k with
  | zero =>
    intro i acc b h
    simp only [pidLoop, Option.some.injEq] at h
    subst h
    simp [applPassFrom]
  | succ k ih =>
    intro i acc b h
    cases hi : intv[i]? with
    | none =>
      simp only [pidLoop, hi] at h
      exact Option.noConfusion h
    | some e =>
      by_cases hpt : pt < e
      · cases hc : cuts[i]? with
        | none =>
          simp only [pidLoop, hi, hc, if_pos hpt] at h
          exact Option.noConfusion h
        | some c =>
          simp only [pidLoop, hi, hc, if_pos hpt] at h
          have hb := ih (i + 1) _ b h
          simp only [applPassFrom, hi, hc, if_pos hpt]
          rw [hb]
          by_cases hns : |nsig| > c <;> cases acc <;> simp [hns]
      · simp only [pidLoop, hi, if_neg hpt] at h
        have hb := ih (i + 1) acc b h
        simp only [applPassFrom, hi, if_neg hpt]
        rw [hb]
        cases hc : cuts[i]? <;> simp [hpt]

/-- Shifting both lists by one cell shifts the index anchor of
`applPassFrom`. -/
theorem applPassFrom_cons (a c : ℚ) (intv cuts : List ℚ) (pt nsig : ℚ) :
    ∀ (k i : Nat),
      applPassFrom (a :: intv) (c :: cuts) pt nsig (i + 1) k =
        applPassFrom intv cuts pt nsig i k := by
  intro k
  induction k with
  | zero => intro i; rfl
  | succ k ih =>
    intro i
    simp only [applPassFrom, List.getElem?_cons_succ, ih]

/-- With an empty cut list no verdict is ever formed. -/
theorem applPassFrom_nil_cuts (intv : List ℚ) (pt nsig : ℚ) :
    ∀ (k i : Nat), applPassFrom intv ([] : List ℚ) pt nsig i k = true := by
  intro k
  induction k with
  | zero => intro i; rfl
  | succ k ih =>
    intro i
    simp only [applPassFrom, ih, Bool.and_true]
    cases intv[i]? <;> simp

/-- Anchored at zero over the whole interval list, `applPassFrom` is the
zipped conjunction `allApplicablePass`. -/
theorem applPassFrom_eq_allApplicablePass (pt nsig : ℚ) :
    ∀ (intv cuts : List ℚ),
      applPassFrom intv cuts pt nsig 0 intv.length = allApplicablePass intv cuts pt nsig := by
  intro intv
  induction intv with
  | nil => intro cuts; rfl
  | cons a tl ih =>
    intro cuts
    cases cuts with
    | nil =>
      rw [applPassFrom_nil_cuts]
      simp [allApplicablePass]
    | cons c ctl =>
      simp only [List.length_cons, applPassFrom, List.getElem?_cons_zero,
        applPassFrom_cons, ih, allApplicablePass, List.zip_cons_cons, List.all_cons]

/-- Claim C4 counterexample: with breakpoints `[2, 3]`, cuts `[1, 5]`, track
pT 1 and kaon nSigma 2, both breakpoints are applicable, the first rejects
and the second, looser one passes — so the last applicable breakpoint's
verdict is acceptance — yet the gate rejects the track. -/
theorem c4_counterexample :
    kaonTPCGate [2, 3] [1, 5] 1 2 = some false ∧
      lastApplicableVerdict [2, 3] [1, 5] 1 2 = some true := by
  constructor
  · norm_num [kaonTPCGate, pidLoop]
  · norm_num [lastApplicableVerdict, List.range_succ, List.filter, List.getLast?, List.getD]

/-- Claim C4 amended: whenever the kaon pT-breakpoint gate is defined (no
out-of-bounds read), its acceptance equals the conjunction of the verdicts
of all applicable breakpoints — a single failing applicable breakpoint
rejects the track, and an earlier rejection is never overwritten by a
later, looser breakpoint. -/
theorem c4_gate_is_conjunction_of_applicable (intv cuts : List ℚ) (pt nsig : ℚ)
    (b : Bool) (h : kaonTPCGate intv cuts pt nsig = some b) :
    b = allApplicablePass intv cuts pt nsig := by
  rw [kaonTPCGate] at h
  by_cases hlen : 0 < intv.length
  · rw [if_pos hlen] at h
    have hb := pidLoop_eq_some intv cuts pt nsig intv.length 0 true b h
    rw [hb, Bool.true_and, applPassFrom_eq_allApplicablePass]
  · rw [if_neg hlen] at h
    injection h with h
    have hnil : intv = [] := List.eq_nil_of_length_eq_zero (by omega)
    subst hnil
    rw [← h]
    rfl

/-- Witness for C4's amended theorem at the counterexample configuration:
the gate value `false` equals the conjunction of the applicable verdicts. -/
theorem c4_witness :
    false = allApplicablePass [2, 3] [1, 5] 1 2 :=
  c4_gate_is_conjunction_of_applicable [2, 3] [1, 5] 1 2 false
    (by norm_num [kaonTPCGate, pidLoop])

/-- A breakpoint loop is defined exactly when, at every index it visits, the
breakpoint list has an entry and — whenever the track pT lies below that
entry — the cut list has one too.  The characterization is independent of
the accumulator. -/
theorem pidLoop_isSome_iff (intv cuts : List ℚ) (pt nsig : ℚ) :
    ∀ (k i : Nat) (acc : Bool),
      (pidLoop intv cuts pt nsig i k acc).isSome = true ↔
        ∀ j : Nat, i ≤ j → j < i + k →
          j < intv.length ∧ (∀ e, intv[j]? = some e → pt < e → j < cuts.length) := by
  intro k
  induction k with
  | zero =>
    intro i acc
    simp only [pidLoop, Option.isSome_some]
    constructor
    · intro _ j h1 h2
      exact absurd h2 (by omega)
    · intro _
      trivial
  | succ k ih =>
    intro i acc
    cases hi : intv[i]? with
    | none =>
      simp only [pidLoop, hi, Option.isSome_none]
      constructor
      · intro hfalse
        exact absurd hfalse (by simp)
      · intro hR
        have hlen : intv.length ≤ i := List.getElem?_eq_none_iff.mp hi
        have h1 := (hR i le_rfl (by omega)).1
        omega
    | some e =>
      have hilen : i < intv.length := by
        rcases List.getElem?_eq_some_iff.mp hi with ⟨hl, _⟩
        exact hl
      by_cases hpt : pt < e
      · cases hc : cuts[i]? with
        | none =>
          simp only [pidLoop, hi, hc, if_pos hpt, Option.isSome_none]
          constructor
          · intro hfalse
            exact absurd hfalse (by simp)
          · intro hR
            have hlen : cuts.length ≤ i := List.getElem?_eq_none_iff.mp hc
            have h2 := (hR i le_rfl (by omega)).2 e hi hpt
            omega
        | some c =>
          have hclen : i < cuts.length := by
            rcases List.getElem?_eq_some_iff.mp hc with ⟨hl, _⟩
            exact hl
          simp only [pidLoop, hi, hc, if_pos hpt]
          rw [ih (i + 1)]
          constructor
          · intro hR j h1 h2
            rcases Nat.eq_or_lt_of_le h1 with rfl | hgt
            · exact ⟨hilen, fun e' _ _ => hclen⟩
            · exact hR j hgt (by omega)
          · intro hR j h1 h2
            exact hR j (by omega) (by omega)
      · simp only [pidLoop, hi, if_neg hpt]
        rw [ih (i + 1)]
        constructor
        · intro hR j h1 h2
          rcases Nat.eq_or_lt_of_le h1 with rfl | hgt
          · refine ⟨hilen, fun e' he' hpt' => ?_⟩
            rw [hi] at he'
            injection he' with he'
            subst he'
            exact absurd hpt' hpt
          · exact hR j hgt (by omega)
        · intro hR j h1 h2
          exact hR j (by omega) (by omega)

/-- Decomposition of a defined kaon PID selection: the TPC loop is defined,
and for a track with TOF the TOF loop is defined for some accumulator. -/
theorem kaonPidSelected_parts (cfg : K1Config) (trk : ResoTrack)
    (h : (kaonPidSelected cfg trk).isSome = true) :
    (0 < cfg.kaonTPCPIDpTintv.length →
      (pidLoop cfg.kaonTPCPIDpTintv cfg.kaonTPCPIDcuts trk.pt trk.tpcNSigmaKa 0
        cfg.kaonTPCPIDpTintv.length true).isSome = true) ∧
    (trk.hasTOF = true → 0 < cfg.kaonTPCPIDpTintv.length →
      ∃ acc : Bool,
        (pidLoop cfg.kaonTOFPIDpTintv cfg.kaonTOFPIDcuts trk.pt trk.tofNSigmaKa 0
          cfg.kaonTPCPIDpTintv.length acc).isSome = true) := by
  by_cases hn : 0 < cfg.kaonTPCPIDpTintv.length
  · simp only [kaonPidSelected, hn, if_true] at h
    cases htpc : pidLoop cfg.kaonTPCPIDpTintv cfg.kaonTPCPIDcuts trk.pt trk.tpcNSigmaKa 0
        cfg.kaonTPCPIDpTintv.length true with
    | none =>
      simp only [htpc, Option.isSome_none] at h
      exact absurd h (by simp)
    | some acc =>
      simp only [htpc] at h
      refine ⟨fun _ => rfl, fun htof _ => ?_⟩
      simp only [htof, if_true] at h
      exact ⟨acc, h⟩
  · exact ⟨fun hx => absurd hx hn, fun _ hx => absurd hx hn⟩

/-- Claim C10: both kaon PID loops are bounded by the length of the TPC
pT-interval list, with the TOF loop indexing the TOF lists under that bound;
every list access is in bounds for every possible track if and only if the
TPC cut list, the TOF interval list and the TOF cut list are each at least
as long as the TPC interval list. -/
theorem c10_kaon_pid_accesses_in_bounds_iff (cfg : K1Config) :
    (∀ trk : ResoTrack, (kaonPidSelected cfg trk).isSome = true) ↔
      (cfg.kaonTPCPIDpTintv.length ≤ cfg.kaonTPCPIDcuts.length ∧
       cfg.kaonTPCPIDpTintv.length ≤ cfg.kaonTOFPIDpTintv.length ∧
       cfg.kaonTPCPIDpTintv.length ≤ cfg.kaonTOFPIDcuts.length) := by
  constructor
  · intro h
    have hA : cfg.kaonTPCPIDpTintv.length ≤ cfg.kaonTPCPIDcuts.length := by
      by_contra hlt
      push_neg at hlt
      obtain ⟨e, he⟩ : ∃ e, cfg.kaonTPCPIDpTintv[cfg.kaonTPCPIDcuts.length]? = some e :=
        ⟨_, List.getElem?_eq_getElem hlt⟩
      have hs := (kaonPidSelected_parts cfg
        { index := 0, sign := 0, pt := e - 1, dcaXY := 0, dcaZ := 0, tpcNSigmaPi := 0,
          tofNSigmaPi := 0, tpcNSigmaKa := 0, tofNSigmaKa := 0, hasTOF := false }
        (h _)).1 (by omega)
      rw [pidLoop_isSome_iff] at hs
      have hc := (hs cfg.kaonTPCPIDcuts.length (by omega) (by omega)).2 e he
        (sub_lt_self e one_pos)
      omega
    have hB : cfg.kaonTPCPIDpTintv.length ≤ cfg.kaonTOFPIDpTintv.length := by
      by_contra hlt
      push_neg at hlt
      obtain ⟨acc, hacc⟩ := (kaonPidSelected_parts cfg
        { index := 0, sign := 0, pt := 0, dcaXY := 0, dcaZ := 0, tpcNSigmaPi := 0,
          tofNSigmaPi := 0, tpcNSigmaKa := 0, tofNSigmaKa := 0, hasTOF := true }
        (h _)).2 rfl (by omega)
      rw [pidLoop_isSome_iff] at hacc
      have hc := (hacc cfg.kaonTOFPIDpTintv.length (by omega) (by omega)).1
      omega
    have hC : cfg.kaonTPCPIDpTintv.length ≤ cfg.kaonTOFPIDcuts.length := by
      by_contra hlt
      push_neg at hlt
      have hjlt : cfg.kaonTOFPIDcuts.length < cfg.kaonTOFPIDpTintv.length := by omega
      obtain ⟨e, he⟩ : ∃ e, cfg.kaonTOFPIDpTintv[cfg.kaonTOFPIDcuts.length]? = some e :=
        ⟨_, List.getElem?_eq_getElem hjlt⟩
      obtain ⟨acc, hacc⟩ := (kaonPidSelected_parts cfg
        { index := 0, sign := 0, pt := e - 1, dcaXY := 0, dcaZ := 0, tpcNSigmaPi := 0,
          tofNSigmaPi := 0, tpcNSigmaKa := 0, tofNSigmaKa := 0, hasTOF := true }
        (h _)).2 rfl (by omega)
      rw [pidLoop_isSome_iff] at hacc
      have hc := (hacc cfg.kaonTOFPIDcuts.length (by omega) (by omega)).2 e he
        (sub_lt_self e one_pos)
      omega
    exact ⟨hA, hB, hC⟩
  · rintro ⟨h1, h2, h3⟩ trk
    simp only [kaonPidSelected]
    by_cases hn : 0 < cfg.kaonTPCPIDpTintv.length
    · have htpc : (pidLoop cfg.kaonTPCPIDpTintv cfg.kaonTPCPIDcuts trk.pt trk.tpcNSigmaKa 0
          cfg.kaonTPCPIDpTintv.length true).isSome = true := by
        rw [pidLoop_isSome_iff]
        intro j hj0 hjn
        exact ⟨by omega, fun e _ _ => by omega⟩
      obtain ⟨acc, hacc⟩ := Option.isSome_iff_exists.mp htpc
      simp only [hn, if_true, hacc]
      cases htof : trk.hasTOF
      · simp
      · have htofl : (pidLoop cfg.kaonTOFPIDpTintv cfg.kaonTOFPIDcuts trk.pt trk.tofNSigmaKa 0
            cfg.kaonTPCPIDpTintv.length acc).isSome = true := by
          rw [pidLoop_isSome_iff]
          intro j hj0 hjn
          exact ⟨by omega, fun e _ _ => by omega⟩
        simp [htofl]
    · simp only [hn, if_false]
      cases htof : trk.hasTOF <;> simp [hn]

end O2
